import Mathlib

/-!
Shallow embedding of the caros per-vendor acquisition pipeline
(BaseProvider / BMWProvider / VWProvider / MetadataManager) in Lean 4.

Conventions of the embedding:
* JavaScript strings are Lean `String`s; the handful of JS string builtins
  the code uses (`includes`, `toLowerCase`, `split`, `endsWith`,
  `decodeURIComponent`, `replace` with a plain-string needle) are modelled
  below on `List Char`, restricted to the ASCII fragment the repository
  actually feeds them.
* JS objects used as string-keyed maps (`metadata.downloads`,
  `globalMetadata.providers`, the categorization result) are association
  lists `List (String × α)`; `insertA` keeps an existing key in place and
  appends a fresh key at the end, matching JS property-insertion order.
* ISO timestamps (`new Date().toISOString()`) are modelled as `Nat`
  instants: the code only ever writes and compares them for recency, and
  ISO-8601 strings from a given clock are order-isomorphic to it.
* Filesystem state of one vendor directory is an association list
  file name ↦ size; `fs.unlink`/`createWriteStream` become removal and
  insertion, `fs.access` becomes a lookup.
* `try { ... } catch { ... }` around an effect is modelled by passing the
  effect's outcome in as an `Except`/`Option` value and translating both
  branches.
-/

namespace Caros

/-! ## Association-list operations (JS objects used as maps) -/

/-- First binding of key `k`, like reading `obj[k]`. -/
def lookupA {α : Type} (k : String) : List (String × α) → Option α
  | [] => none
  | (k1, v) :: rest => if k1 = k then some v else lookupA k rest

/-- Drop every binding of key `k`, like `delete obj[k]` (or `fs.unlink`). -/
def removeA {α : Type} (k : String) : List (String × α) → List (String × α)
  | [] => []
  | (k1, v) :: rest => if k1 = k then removeA k rest else (k1, v) :: removeA k rest

/-- Write `obj[k] = v`: replace an existing binding in place, append a new key. -/
def insertA {α : Type} (k : String) (v : α) : List (String × α) → List (String × α)
  | [] => [(k, v)]
  | (k1, v1) :: rest => if k1 = k then (k, v) :: rest else (k1, v1) :: insertA k v rest

/-! ## JS string builtins on the ASCII fragment -/

/-- `needle` is a prefix of `hay` (character-exact). -/
def listPref : List Char → List Char → Bool
  | [], _ => true
  | _ :: _, [] => false
  | a :: as, b :: bs => a = b && listPref as bs

/-- `hay` contains `needle` as a contiguous substring, like JS `hay.includes(needle)`. -/
def listIncl (needle : List Char) : List Char → Bool
  | [] => needle.isEmpty
  | x :: xs => listPref needle (x :: xs) || listIncl needle xs

/-- JS `s.includes(sub)`. -/
def strIncludes (s sub : String) : Bool := listIncl sub.toList s.toList

/-- JS `s.endsWith(suffix)`. -/
def endsWithA (s suffix : String) : Bool := listPref suffix.toList.reverse s.toList.reverse

/-- ASCII case folding of one character, the fragment of `toLowerCase`
the repository's German/ASCII titles and URLs exercise. -/
def lowerChar (c : Char) : Char :=
  if 'A' ≤ c ∧ c ≤ 'Z' then Char.ofNat (c.toNat + 32) else c

/-- JS `s.toLowerCase()` on ASCII input. -/
def jsToLower (s : String) : String := ⟨s.toList.map lowerChar⟩

/-- Remove the first occurrence of `needle`, like JS `s.replace(needle, '')`
with a plain-string needle. -/
def removeFirstOcc (needle : List Char) : List Char → List Char
  | [] => []
  | x :: xs => if listPref needle (x :: xs) then (x :: xs).drop needle.length
               else x :: removeFirstOcc needle xs

/-! ## decodeURIComponent (single-byte fragment) -/

/-- Hexadecimal digit value. -/
def hexVal (c : Char) : Option Nat :=
  if '0' ≤ c ∧ c ≤ '9' then some (c.toNat - 48)
  else if 'a' ≤ c ∧ c ≤ 'f' then some (c.toNat - 87)
  else if 'A' ≤ c ∧ c ≤ 'F' then some (c.toNat - 55)
  else none

/-- `decodeURIComponent` restricted to single-byte percent escapes; a
malformed escape yields `none`, modelling the `URIError` the surrounding
`try` of `extractCleanFilename` catches.  (Multi-byte UTF-8 escapes do not
occur in the vendor URLs this code handles and are outside the model.) -/
def percentDecodeList : List Char → Option (List Char)
  | [] => some []
  | '%' :: h1 :: h2 :: rest =>
    match hexVal h1, hexVal h2 with
    | some a, some b =>
      if 16 * a + b < 128 then (percentDecodeList rest).map (fun r => Char.ofNat (16 * a + b) :: r)
      else none
    | _, _ => none
  | '%' :: _ => none
  | c :: rest => (percentDecodeList rest).map (fun r => c :: r)

/-! ## node:path helpers (`basename`, `extname`) for slash-free file names -/

/-- `path.basename`: the part after the last slash. -/
def basenameOf (l : List Char) : List Char :=
  (l.reverse.takeWhile (fun c => c ≠ '/')).reverse

/-- `path.extname`: from the last dot of the basename to the end; empty when
there is no dot or the only dot is the leading character. -/
def extnameOf (l : List Char) : List Char :=
  let b := basenameOf l
  let afterDot := b.reverse.takeWhile (fun c => c ≠ '.')
  if afterDot.length = b.length then []
  else if afterDot.length + 1 = b.length then []
  else '.' :: afterDot.reverse

/-- `path.extname` on a `String`. -/
def extnameStr (s : String) : String := String.mk (extnameOf s.toList)

/-- `path.basename(f, path.extname(f))`: basename with its extension removed. -/
def baseNameNoExt (l : List Char) : List Char :=
  let b := basenameOf l
  b.take (b.length - (extnameOf l).length)

/-! ## The regex fragment used by the version / base-name patterns

Every regex in the source is a concatenation of: literal characters,
`\d+`, `\d{n}`, and `[A-Z-]*`.  For these patterns greedy maximal-munch
matching coincides with JS backtracking semantics, because after each
greedy run the next atom is a literal character excluded from the run's
character class (a dot, dash or underscore after `\d+`; an underscore
after `[A-Z-]*`), so no shorter run can ever succeed where the maximal
one fails.  The `.*$` tails of the base-name patterns are modelled by
truncating at the leftmost match (`stripPat`). -/

inductive PatAtom where
  | lit (c : Char)
  | digits
  | dexact (n : Nat)
  | star (p : Char → Bool)

/-- Match a pattern at the head of the input; returns the consumed
characters and the rest. -/
def matchAtoms : List PatAtom → List Char → Option (List Char × List Char)
  | [], l => some ([], l)
  | .lit c :: ps, l =>
    match l with
    | [] => none
    | x :: xs => if x = c then (matchAtoms ps xs).map (fun r => (c :: r.1, r.2)) else none
  | .digits :: ps, l =>
    match l with
    | [] => none
    | x :: xs =>
      if x.isDigit then
        (matchAtoms ps (xs.dropWhile Char.isDigit)).map
          (fun r => (x :: xs.takeWhile Char.isDigit ++ r.1, r.2))
      else none
  | .dexact n :: ps, l =>
    if (l.take n).length = n ∧ (l.take n).all Char.isDigit then
      (matchAtoms ps (l.drop n)).map (fun r => (l.take n ++ r.1, r.2))
    else none
  | .star p :: ps, l =>
    (matchAtoms ps (l.dropWhile p)).map (fun r => (l.takeWhile p ++ r.1, r.2))

/-- Leftmost match of a pattern, returning the matched substring
(the regex's `match[1]`, where the capture group is the whole pattern). -/
def searchConsume (ps : List PatAtom) : List Char → Option (List Char)
  | [] => none
  | x :: xs =>
    match matchAtoms ps (x :: xs) with
    | some r => some r.1
    | none => searchConsume ps xs

/-- Index of the leftmost match of a pattern. -/
def searchIdx (ps : List PatAtom) : List Char → Option Nat
  | [] => none
  | x :: xs =>
    if (matchAtoms ps (x :: xs)).isSome then some 0
    else (searchIdx ps xs).map (fun i => i + 1)

/-- `s.replace(/<pattern>.*$/, '')`: truncate at the leftmost match. -/
def stripPat (ps : List PatAtom) (l : List Char) : List Char :=
  match searchIdx ps l with
  | some i => l.take i
  | none => l

/-- First pattern of the list that matches anywhere wins. -/
def firstPatMatch (pats : List (List PatAtom)) (l : List Char) : Option (List Char) :=
  match pats with
  | [] => none
  | p :: rest =>
    match searchConsume p l with
    | some m => some m
    | none => firstPatMatch rest l

/-! ## Version extraction (§ Version Policy)

`BaseProvider.extractVersion(url)` tries, in order,
`/(\d+\.\d+\.\d+\.\d+)/`, `/(\d+\.\d+\.\d+)/`, `/(\d+-\d+-\d+)/`
against the URL alone and falls back to the sentinel `"unknown"`.
`VWProvider.extractVersion(url, filename)` first tries a longer list
against the filename, then the same three URL patterns. -/

def pat4dot : List PatAtom := [.digits, .lit '.', .digits, .lit '.', .digits, .lit '.', .digits]

def pat3dot : List PatAtom := [.digits, .lit '.', .digits, .lit '.', .digits]

def patDash : List PatAtom := [.digits, .lit '-', .digits, .lit '-', .digits]

/-- `[A-Z-]` character class. -/
def upperOrDash (c : Char) : Bool := ('A' ≤ c ∧ c ≤ 'Z') ∨ c = '-'

/-- `/(\d+_\d+_\d+[A-Z-]*_\d{8})/` — e.g. `25_1_0-EU_20250820`. -/
def patUnderscoreDateRegion : List PatAtom :=
  [.digits, .lit '_', .digits, .lit '_', .digits, .star upperOrDash, .lit '_', .dexact 8]

/-- `/(\d+_\d+_\d+_\d{8})/` — e.g. `25_1_0_20250820`. -/
def patUnderscoreDate : List PatAtom :=
  [.digits, .lit '_', .digits, .lit '_', .digits, .lit '_', .dexact 8]

/-- `/(\d{4}-\d{2}-\d{2})/` — e.g. `2025-02-03`. -/
def patIsoDate : List PatAtom :=
  [.dexact 4, .lit '-', .dexact 2, .lit '-', .dexact 2]

def baseUrlPatterns : List (List PatAtom) := [pat4dot, pat3dot, patDash]

/-- `BaseProvider.extractVersion` (used by the BMW provider). -/
def extractVersion (url : String) : String :=
  match firstPatMatch baseUrlPatterns url.toList with
  | some m => String.mk m
  | none => "unknown"

def vwFilenamePatterns : List (List PatAtom) :=
  [patUnderscoreDateRegion, patUnderscoreDate, pat4dot, pat3dot, patDash, patIsoDate]

/-- `VWProvider.extractVersion`'s own copy of the URL fallback patterns. -/
def vwUrlPatterns : List (List PatAtom) := [pat4dot, pat3dot, patDash]

/-- The filename phase of `VWProvider.extractVersion`. -/
def vwFilenameMatch (filename : String) : Option String :=
  (firstPatMatch vwFilenamePatterns filename.toList).map String.mk

/-- `VWProvider.extractVersion(url, filename)`. -/
def vwExtractVersion (url filename : String) : String :=
  if filename ≠ "" then
    match vwFilenameMatch filename with
    | some v => v
    | none =>
      match firstPatMatch vwUrlPatterns url.toList with
      | some m => String.mk m
      | none => "unknown"
  else
    match firstPatMatch vwUrlPatterns url.toList with
    | some m => String.mk m
    | none => "unknown"

/-! ## Base-name normalization and filename resolution (Transfer Manager) -/

/-- `_\d+\.\d+\.\d+.*$` -/
def gbPat1 : List PatAtom := [.lit '_', .digits, .lit '.', .digits, .lit '.', .digits]

/-- `_\d{4}-\d{2}-\d{2}.*$` -/
def gbPat2 : List PatAtom := [.lit '_', .dexact 4, .lit '-', .dexact 2, .lit '-', .dexact 2]

/-- `_\d+-\d+-\d+.*$` -/
def gbPat3 : List PatAtom := [.lit '_', .digits, .lit '-', .digits, .lit '-', .digits]

/-- `_\d+\.\d+.*$` -/
def gbPat4 : List PatAtom := [.lit '_', .digits, .lit '.', .digits]

/-- `BaseProvider.getBaseFileName`: strip the extension, then apply the four
version-suffix-stripping replaces in source order. -/
def getBaseFileName (fileName : String) : String :=
  String.mk (stripPat gbPat4 (stripPat gbPat3 (stripPat gbPat2 (stripPat gbPat1
    (baseNameNoExt fileName.toList)))))

/-- `BaseProvider.getFileExtension`: substring hints on the lowercased URL. -/
def getFileExtension (url : String) : String :=
  let urlLower := jsToLower url
  if strIncludes urlLower ".exe" then ".exe"
  else if strIncludes urlLower ".zip" then ".zip"
  else if strIncludes urlLower ".istapdata" then ".istapdata"
  else ".bin"

/-- JS `s.split(sep)` for a single-character separator. -/
def splitOnChar (sep : Char) : List Char → List (List Char)
  | [] => [[]]
  | c :: rest =>
    let r := splitOnChar sep rest
    if c = sep then [] :: r
    else
      match r with
      | [] => [[c]]
      | g :: gs => (c :: g) :: gs

/-- `BaseProvider.extractCleanFilename`: last URL path segment, query string
stripped, percent-decoded, `&signed=true` removed; `none` models the
`null` returns (empty or placeholder name, or a decode error). -/
def extractCleanFilename (url : String) : Option String :=
  let parts := splitOnChar '/' url.toList
  let fn0 := parts.getLastD []
  let fn1 := if listIncl ['?'] fn0 then fn0.takeWhile (fun c => c ≠ '?') else fn0
  match percentDecodeList fn1 with
  | none => none
  | some dec =>
    let dec2 := if listIncl ("&signed=true".toList) dec
                then removeFirstOcc ("&signed=true".toList) dec else dec
    let fn2 := String.mk dec2
    if fn2 ≠ "" ∧ fn2 ≠ "download" then some fn2 else none

/-- A categorized artifact as handed to `downloadFile` (the fields the
transfer path reads). -/
structure Download where
  title : String
  url : String
  category : String
  version : String
  displayName : String
deriving DecidableEq, Repr

/-- The synthesized fallback `<category>[_<version>]<extension>`. -/
def fallbackFileName (d : Download) : String :=
  d.category ++ (if d.version ≠ "unknown" then "_" ++ d.version else "") ++ getFileExtension d.url

/-- Filename resolution at the top of `BaseProvider.downloadFile`:
the cleaned URL filename unless missing, a placeholder, or shorter than
5 characters, in which case the synthesized fallback. -/
def resolveFileName (d : Download) : String :=
  match extractCleanFilename d.url with
  | some f => if f = "download" ∨ f.length < 5 then fallbackFileName d else f
  | none => fallbackFileName d

/-! ## Vendor state (`<vendor>_metadata.json`) and its operations -/

/-- The persisted per-category artifact record (the fields of the object
`updateMetadata` writes that the pipeline later reads back). -/
structure ArtifactRecord where
  version : String
  fileName : String
  fileSize : Nat
  downloadedAt : Nat
deriving DecidableEq, Repr

/-- `VendorState`: the shape of `this.metadata`. -/
structure Metadata where
  lastUpdate : Option Nat
  downloads : List (String × ArtifactRecord)
deriving DecidableEq, Repr

/-- `BaseProvider.loadMetadata`: the `try`'s read-and-parse outcome comes in
as an `Except`; any failure yields the empty initial state. -/
def loadMetadata (readResult : Except String Metadata) : Metadata :=
  match readResult with
  | .ok m => m
  | .error _ => { lastUpdate := none, downloads := [] }

/-- `BaseProvider.updateMetadata(category, data)`: store the record and
advance `lastUpdate` to the current instant (then persist). -/
def updateMetadata (m : Metadata) (category : String) (data : ArtifactRecord) (now : Nat) :
    Metadata :=
  { lastUpdate := some now, downloads := insertA category data m.downloads }

/-- `BaseProvider.updateLastCheck`: advance `lastUpdate` even when nothing
was downloaded (then persist). -/
def updateLastCheck (m : Metadata) (now : Nat) : Metadata :=
  { m with lastUpdate := some now }

/-- `BaseProvider.isNewVersion(category, version)`.  The JS guard
`if (!lastVersion)` is falsy both when no record (or no version field the
code ever writes) exists and when the recorded version is the empty
string; both branches are kept. -/
def isNewVersion (m : Metadata) (category version : String) : Bool :=
  match lookupA category m.downloads with
  | none => true
  | some r =>
    if r.version = "" then true
    else if version = "unknown" then false
    else decide (version ≠ r.version)

/-! ## Transfer Manager (`downloadFile`, `cleanupOldVersions`) -/

/-- One vendor's storage directory (file name ↦ size) together with its
persisted metadata; the code persists `this.metadata` after each mutation,
so the in-memory and on-disk copies coincide. -/
structure ProviderFS where
  files : List (String × Nat)
  metadata : Metadata
deriving DecidableEq, Repr

/-- `BaseProvider.cleanupSimilarFiles(category, newFileName)`: delete every
directory entry that shares the version-stripped base name and the
extension of the new file, skipping `.json` metadata files and the new
file itself.  (The `category` argument is unused in the source too.) -/
def cleanupSimilarFiles (st : ProviderFS) (_category newFileName : String) : ProviderFS :=
  { st with files := st.files.filter (fun f =>
      endsWithA f.1 ".json" || f.1 == newFileName ||
      !(getBaseFileName f.1 == getBaseFileName newFileName &&
        extnameStr f.1 == extnameStr newFileName)) }

/-- `BaseProvider.cleanupOldVersions(category, newFileName)`: when the
category's record names a different file, and that file is on disk
(`fs.access` succeeds), unlink it and delete the record (persisting the
metadata); a missing old file is ignored.  Then run the similar-file
sweep. -/
def cleanupOldVersions (st : ProviderFS) (category newFileName : String) : ProviderFS :=
  let st1 :=
    match lookupA category st.metadata.downloads with
    | some r =>
      if r.fileName ≠ "" ∧ r.fileName ≠ newFileName then
        if (lookupA r.fileName st.files).isSome then
          { files := removeA r.fileName st.files,
            metadata := { st.metadata with downloads := removeA category st.metadata.downloads } }
        else st
      else st
    | none => st
  cleanupSimilarFiles st1 category newFileName

/-- Outcome of the streamed HTTP transfer inside `downloadFile`'s inner
`try`: either some throw (request error or stream error — any partial
file is unlinked by the `catch`), or a completed stream that left a file
of the given size on disk. -/
inductive TransferResult where
  | failed
  | completed (size : Nat)
deriving DecidableEq, Repr

/-- The record `downloadFile` stores on success
(`{...download, fileName, filePath, fileSize, downloadedAt}`). -/
def mkArtifactRecord (d : Download) (fileName : String) (size now : Nat) : ArtifactRecord :=
  { version := d.version, fileName := fileName, fileSize := size, downloadedAt := now }

/-- `BaseProvider.downloadFile(download)`: resolve the filename, run
`cleanupOldVersions`, transfer; verify the written file is non-empty
(`stats.size > 0`), recording it and returning `true` on success; on a
throw, or on a zero-byte file (the `Downloaded file is empty` throw),
unlink whatever sits at the target path and return `false`. -/
def downloadFile (st : ProviderFS) (d : Download) (transfer : TransferResult) (now : Nat) :
    ProviderFS × Bool :=
  let fileName := resolveFileName d
  let st1 := cleanupOldVersions st d.category fileName
  match transfer with
  | .failed => ({ st1 with files := removeA fileName st1.files }, false)
  | .completed size =>
    let files2 := insertA fileName size st1.files
    if size > 0 then
      ({ files := files2,
         metadata := updateMetadata st1.metadata d.category (mkArtifactRecord d fileName size now) now },
       true)
    else
      ({ st1 with files := removeA fileName files2 }, false)

/-! ## Aggregate state (`global_metadata.json`, `MetadataManager`) -/

/-- One vendor's entry in the aggregate file:
`{...providerData, lastUpdate, version}`. -/
structure ProviderEntry where
  downloads : List (String × ArtifactRecord)
  lastUpdate : Nat
  version : String
deriving DecidableEq, Repr

/-- `AggregateState`: the shape of `global_metadata.json`. -/
structure GlobalMetadata where
  providers : List (String × ProviderEntry)
  lastGlobalUpdate : Option Nat
  version : String
deriving DecidableEq, Repr

/-- `MetadataManager.loadGlobalMetadata`: any read/parse failure yields the
empty initial aggregate shape. -/
def loadGlobalMetadata (readResult : Except String GlobalMetadata) : GlobalMetadata :=
  match readResult with
  | .ok g => g
  | .error _ => { providers := [], lastGlobalUpdate := none, version := "1.0.0" }

/-- Reading the aggregate file: a missing file is a read error
(`fs.readFile` rejects). -/
def readAggregate (file : Option GlobalMetadata) : Except String GlobalMetadata :=
  match file with
  | some g => .ok g
  | none => .error "ENOENT"

/-- The modify phase of `MetadataManager.updateProviderMetadata`: store the
vendor's entry and advance `lastGlobalUpdate`. -/
def updateProviderEntry (g : GlobalMetadata) (name : String) (pd : Metadata) (now : Nat) :
    GlobalMetadata :=
  { providers := insertA name { downloads := pd.downloads, lastUpdate := now, version := g.version }
      g.providers,
    lastGlobalUpdate := some now,
    version := g.version }

/-! ## Interleaving of two concurrent `updateProviderMetadata` calls

`updateProviderMetadata` is `load; modify; save` with `await`ed file I/O
between the load and the save, so two same-process vendor loops (driven
concurrently by `Promise.all` in `runAllProviders`) can interleave there.
A task is either before its load, holding its loaded copy, or done. -/

inductive RMWPhase where
  | ready
  | loaded (g : GlobalMetadata)
  | finished
deriving DecidableEq, Repr

/-- One in-flight `updateProviderMetadata(name, pd)` call. -/
structure RMWTask where
  name : String
  pd : Metadata
  now : Nat
  phase : RMWPhase
deriving DecidableEq, Repr

/-- The shared aggregate file plus two vendor tasks. -/
structure AggSystem where
  file : Option GlobalMetadata
  taskA : RMWTask
  taskB : RMWTask
deriving DecidableEq, Repr

/-- One scheduler step of a task: its load, or its modify-and-save. -/
def stepRMW (file : Option GlobalMetadata) (t : RMWTask) : Option GlobalMetadata × RMWTask :=
  match t.phase with
  | .ready => (file, { t with phase := .loaded (loadGlobalMetadata (readAggregate file)) })
  | .loaded g => (some (updateProviderEntry g t.name t.pd t.now), { t with phase := .finished })
  | .finished => (file, t)

/-- Run a schedule; `true` steps task A, `false` steps task B. -/
def runSchedule (s : AggSystem) : List Bool → AggSystem
  | [] => s
  | pick :: rest =>
    let s1 :=
      if pick then
        let r := stepRMW s.file s.taskA
        { s with file := r.1, taskA := r.2 }
      else
        let r := stepRMW s.file s.taskB
        { s with file := r.1, taskB := r.2 }
    runSchedule s1 rest

/-! ## The vendor-state mutators as a trace (for the `lastUpdate` invariant) -/

/-- The three mutations of the persisted vendor state that occur in the
source: `updateMetadata` (a successful download), `updateLastCheck`
(cycle heartbeat), and the record deletion inside `cleanupOldVersions`
(which does not touch `lastUpdate`). -/
inductive VendorOp where
  | updateMeta (category : String) (data : ArtifactRecord) (now : Nat)
  | lastCheck (now : Nat)
  | dropRecord (category : String)
deriving DecidableEq, Repr

def applyVendorOp (m : Metadata) : VendorOp → Metadata
  | .updateMeta c d now => updateMetadata m c d now
  | .lastCheck now => updateLastCheck m now
  | .dropRecord c => { m with downloads := removeA c m.downloads }

def runVendorOps (m : Metadata) : List VendorOp → Metadata
  | [] => m
  | op :: rest => runVendorOps (applyVendorOp m op) rest

/-- The clock instant an operation stamps, when it stamps one. -/
def opTime : VendorOp → Option Nat
  | .updateMeta _ _ now => some now
  | .lastCheck now => some now
  | .dropRecord _ => none

/-- Order on optional timestamps: an absent timestamp precedes everything. -/
def leOpt (a b : Option Nat) : Prop := ∀ t, a = some t → ∃ u, b = some u ∧ t ≤ u

/-! ## Login control flow (Session Controller) -/

/-- An event handed to the notification collaborator. -/
inductive LoginEvent where
  | loginFailure (vendor : String) (reason : String)
deriving DecidableEq, Repr

/-- `BMWProvider.login()`.  The navigation/submission/wait sequence either
throws (with a message) or reaches the URL check with the current URL;
the `catch` sends exactly one login-failure notification (via
`sendLoginFailureNotification`, whose own failures are swallowed) and
returns `false`. -/
def bmwLogin (isLoggedIn : Bool) (attempt : Except String String) : Bool × List LoginEvent :=
  if isLoggedIn then (true, [])
  else
    match attempt with
    | .error msg => (false, [.loginFailure "bmw" msg])
    | .ok currentUrl =>
      if strIncludes currentUrl "startpage-workshop" || strIncludes currentUrl "aos.bmwgroup.com" then
        (true, [])
      else
        (false, [.loginFailure "bmw" ("Login verification failed - URL: " ++ currentUrl)])

/-- `VWProvider.login()`.  The attempt either throws, or ends the polling
loop with a content-check verdict and the current URL; the `catch` only
logs and returns `false` — it sends no notification. -/
def vwLogin (isLoggedIn : Bool) (attempt : Except String (Bool × String)) :
    Bool × List LoginEvent :=
  if isLoggedIn then (true, [])
  else
    match attempt with
    | .error _ => (false, [])
    | .ok (loginSuccess, currentUrl) =>
      if loginSuccess then (true, [])
      else if strIncludes currentUrl "erwin" || strIncludes currentUrl "volkswagen" then (true, [])
      else (false, [])

/-! ## BMW discovery categorization (`BMWProvider.categorizeDownloads`) -/

/-- A raw candidate link found on the page. -/
structure Candidate where
  title : String
  url : String
deriving DecidableEq, Repr

/-- A candidate enriched by categorization. -/
structure CatArtifact where
  title : String
  url : String
  category : String
  appType : String
  displayName : String
  version : String
deriving DecidableEq, Repr

/-- The allow-list check: some filter entry occurs in the lowercased title
(case-insensitively) or in the raw title (case-sensitively). -/
def matchesFilter (filter : List String) (c : Candidate) : Bool :=
  filter.any (fun ft => strIncludes (jsToLower c.title) (jsToLower ft) || strIncludes c.title ft)

/-- The ISTA-P rule chain, over the lowercased title and URL. -/
def istaPCategory (title url : String) : Option String :=
  if strIncludes title "installationsprogramm" || strIncludes title "installationsdatei" ||
     strIncludes url "istaoss" || strIncludes url "bdrclient" then
    some "installer"
  else if strIncludes title "datenarchiv" || strIncludes url "commondat" ||
     strIncludes url ".istapdata" ||
     (strIncludes url "ista-p" && strIncludes url "commondat") then
    some "data_archive"
  else none

/-- The ISTA-Next rule chain, over the lowercased title and URL; the order
of the four rules is the source's priority order.  Note the second
disjunct of the first rule tests the lowercased URL for the mixed-case
needle `ISTAOSS_ProgrammingData_`. -/
def istaNextCategory (title url : String) : Option String :=
  if strIncludes title "programmierdaten" || strIncludes url "ISTAOSS_ProgrammingData_" then
    some "programming_data"
  else if strIncludes title "installationsdatei" || strIncludes title "client" ||
      strIncludes url "istaoss" || strIncludes url "client" then
    some "client"
  else if (strIncludes title "icom" && strIncludes title "firmware") ||
      strIncludes url "ICOM-Next-FW" ||
      (strIncludes url "icom" && strIncludes url "fw") then
    some "icom_firmware"
  else if strIncludes title "ptd" || strIncludes title "treiber" || strIncludes url "ptd" ||
      strIncludes url "passthru" then
    some "ptd_driver"
  else none

/-- Dispatch on the application surface. -/
def bmwAssignCategory (appType title url : String) : Option String :=
  if appType = "ista-p" then istaPCategory title url
  else if appType = "ista-next" then istaNextCategory title url
  else none

/-- `Object.keys(this.downloadCategories[appType])`. -/
def bmwValidCategories (appType : String) : List String :=
  if appType = "ista-p" then ["installer", "data_archive"]
  else if appType = "ista-next" then ["client", "programming_data", "icom_firmware", "ptd_driver"]
  else []

/-- `this.downloadCategories[appType][category]`. -/
def bmwDisplayName (appType category : String) : String :=
  if appType = "ista-p" then
    if category = "installer" then "Installationsprogramm ISTA/P"
    else if category = "data_archive" then "Datenarchiv ISTA/P"
    else ""
  else if appType = "ista-next" then
    if category = "client" then "Installationsdatei ISTA Client"
    else if category = "programming_data" then "ISTA Programmierdaten"
    else if category = "icom_firmware" then "ICOM Next Firmware"
    else if category = "ptd_driver" then "BMW PTD-Treiber"
    else ""
  else ""

/-- The loop body after the allow-list check: lowercase, assign a category,
and store the enriched candidate when the category is valid and not yet
occupied (`!categorized[category]`). -/
def bmwApplyCandidate (appType : String) (acc : List (String × CatArtifact)) (c : Candidate) :
    List (String × CatArtifact) :=
  match bmwAssignCategory appType (jsToLower c.title) (jsToLower c.url) with
  | some category =>
    if category ∈ bmwValidCategories appType ∧ (lookupA category acc).isNone then
      insertA category
        { title := c.title, url := c.url, category := category, appType := appType,
          displayName := bmwDisplayName appType category,
          version := extractVersion c.url } acc
    else acc
  | none => acc

/-- One iteration of the `for (const download of downloads)` loop. -/
def bmwCategorizeStep (filter : List String) (appType : String)
    (acc : List (String × CatArtifact)) (c : Candidate) : List (String × CatArtifact) :=
  if matchesFilter filter c then bmwApplyCandidate appType acc c else acc

/-- `BMWProvider.categorizeDownloads(downloads, appType)`. -/
def bmwCategorizeDownloads (filter : List String) (appType : String)
    (downloads : List Candidate) : List (String × CatArtifact) :=
  downloads.foldl (bmwCategorizeStep filter appType) []

/-! ## Concrete scenario states used by witnesses and counterexamples -/

/-- A vendor state holding one installer record at version 1.0.0. -/
def sampleMeta : Metadata := ⟨some 0, [("installer", ⟨"1.0.0", "Tool_1.0.0.exe", 100, 0⟩)]⟩

/-- A vendor directory holding the installer's 1.0.0 file. -/
def sampleState : ProviderFS := ⟨[("Tool_1.0.0.exe", 100)], sampleMeta⟩

/-- The newly accepted 1.1.0 installer artifact. -/
def sampleDownload : Download :=
  ⟨"Tool", "https://host/sw/Tool_1.1.0.exe", "installer", "1.1.0", "Tool"⟩

/-- Two concurrent aggregate updates (bmw then vw) over a missing file. -/
def c7System : AggSystem :=
  ⟨none, ⟨"bmw", ⟨none, []⟩, 1, .ready⟩, ⟨"vw", ⟨none, []⟩, 2, .ready⟩⟩

/-- Aggregate contents after the interleaving read-A, read-B, write-A, write-B. -/
def c7Interleaved : GlobalMetadata :=
  ((runSchedule c7System [true, false, true, false]).file).getD ⟨[], none, ""⟩

/-- Aggregate contents after the serialized order read-A, write-A, read-B, write-B. -/
def c7Serialized : GlobalMetadata :=
  ((runSchedule c7System [true, true, false, false]).file).getD ⟨[], none, ""⟩

/-- The spec's categorization example, first candidate. -/
def c5Cand1 : Candidate :=
  ⟨"ISTA Programmierdaten", "https://portal/dl/ISTAOSS_ProgrammingData_1.2.3.zip"⟩

/-- The spec's categorization example, second candidate. -/
def c5Cand2 : Candidate := ⟨"Installationsdatei Client", "https://portal/dl/client_1.2.3.exe"⟩

end Caros

namespace Caros

/-! ## Association-list lemmas -/

theorem lookupA_insertA_self {α : Type} (k : String) (v : α) (l : List (String × α)) :
    lookupA k (insertA k v l) = some v := by
  induction l with
  | nil => rw [insertA, lookupA, if_pos rfl]
  | cons hd tl ih =>
    obtain ⟨k1, v1⟩ := hd
    by_cases h : k1 = k
    · rw [insertA, if_pos h, lookupA, if_pos rfl]
    · rw [insertA, if_neg h, lookupA, if_neg h]
      exact ih

theorem lookupA_insertA_ne {α : Type} (k k1 : String) (v : α) (l : List (String × α))
    (h : k ≠ k1) : lookupA k (insertA k1 v l) = lookupA k l := by
  induction l with
  | nil => simp [insertA, lookupA, Ne.symm h]
  | cons hd tl ih =>
    obtain ⟨k2, v2⟩ := hd
    by_cases h2 : k2 = k1
    · have hk2 : ¬ k2 = k := by rw [h2]; exact Ne.symm h
      rw [insertA, if_pos h2, lookupA, if_neg (Ne.symm h), lookupA, if_neg hk2]
    · rw [insertA, if_neg h2, lookupA, lookupA]
      by_cases h3 : k2 = k
      · rw [if_pos h3, if_pos h3]
      · rw [if_neg h3, if_neg h3, ih]

theorem lookupA_removeA_self {α : Type} (k : String) (l : List (String × α)) :
    lookupA k (removeA k l) = none := by
  induction l with
  | nil => rfl
  | cons hd tl ih =>
    obtain ⟨k1, v1⟩ := hd
    by_cases h : k1 = k
    · rw [removeA, if_pos h]
      exact ih
    · rw [removeA, if_neg h, lookupA, if_neg h]
      exact ih

theorem lookupA_removeA_ne {α : Type} (k k1 : String) (l : List (String × α))
    (h : k ≠ k1) : lookupA k (removeA k1 l) = lookupA k l := by
  induction l with
  | nil => rfl
  | cons hd tl ih =>
    obtain ⟨k2, v2⟩ := hd
    by_cases h2 : k2 = k1
    · have hk2 : ¬ k2 = k := by rw [h2]; exact Ne.symm h
      rw [removeA, if_pos h2, ih, lookupA, if_neg hk2]
    · rw [removeA, if_neg h2, lookupA, lookupA]
      by_cases h3 : k2 = k
      · rw [if_pos h3, if_pos h3]
      · rw [if_neg h3, if_neg h3, ih]

theorem lookupA_filter_none {α : Type} (k : String) (p : String × α → Bool)
    (l : List (String × α)) (h : lookupA k l = none) : lookupA k (l.filter p) = none := by
  induction l with
  | nil => simp [lookupA]
  | cons hd tl ih =>
    obtain ⟨k1, v1⟩ := hd
    rw [lookupA] at h
    by_cases h1 : k1 = k
    · simp [h1] at h
    · rw [if_neg h1] at h
      by_cases hp : p (k1, v1) = true
      · simp [List.filter, hp, lookupA, h1, ih h]
      · simp only [List.filter, hp]
        simpa using ih h

theorem mem_insertA {α : Type} (x : String × α) (k : String) (v : α) (l : List (String × α))
    (hx : x ∈ insertA k v l) : x = (k, v) ∨ x ∈ l := by
  induction l with
  | nil => simpa [insertA] using hx
  | cons hd tl ih =>
    obtain ⟨k1, v1⟩ := hd
    by_cases h : k1 = k
    · rw [insertA, if_pos h] at hx
      rcases List.mem_cons.mp hx with h2 | h2
      · exact Or.inl h2
      · exact Or.inr (List.mem_cons_of_mem _ h2)
    · rw [insertA, if_neg h] at hx
      rcases List.mem_cons.mp hx with h2 | h2
      · exact Or.inr (h2 ▸ List.mem_cons_self _ _)
      · rcases ih h2 with h3 | h3
        · exact Or.inl h3
        · exact Or.inr (List.mem_cons_of_mem _ h3)

/-! ## Character-level lemmas for the dead lowercased-URL check -/

theorem toNat_ofNat_valid (n : Nat) (h : n.isValidChar) : (Char.ofNat n).toNat = n := by
  simp [Char.ofNat, dif_pos h, Char.ofNatAux, Char.toNat, UInt32.toNat, BitVec.ofNatLt]

theorem lowerChar_ne_I (c : Char) : lowerChar c ≠ 'I' := by
  unfold lowerChar
  split
  · next h =>
    obtain ⟨h1, h2⟩ := h
    intro hEq
    have hA : 65 ≤ c.toNat := h1
    have hZ : c.toNat ≤ 90 := h2
    have hvalid : (c.toNat + 32).isValidChar := by
      left
      omega
    have hv : (Char.ofNat (c.toNat + 32)).toNat = 73 := by rw [hEq]; decide
    rw [toNat_ofNat_valid _ hvalid] at hv
    omega
  · next h =>
    intro hEq
    subst hEq
    exact h (by decide)

theorem listPref_eq_head (a : Char) (as bs : List Char) (h : listPref (a :: as) bs = true) :
    ∃ cs, bs = a :: cs := by
  cases bs with
  | nil => exact absurd h (by simp [listPref])
  | cons b bs2 =>
    have hab : a = b := by
      by_contra hne
      simp [listPref, hne] at h
    exact ⟨bs2, by rw [hab]⟩

theorem listIncl_head_mem (a : Char) (as l : List Char) (h : listIncl (a :: as) l = true) :
    a ∈ l := by
  induction l with
  | nil => simp [listIncl, List.isEmpty] at h
  | cons x xs ih =>
    rw [listIncl] at h
    have h2 : listPref (a :: as) (x :: xs) = true ∨ listIncl (a :: as) xs = true := by
      simpa using h
    rcases h2 with hpref | hrest
    · obtain ⟨cs, hcs⟩ := listPref_eq_head a as (x :: xs) hpref
      rw [hcs]
      exact List.mem_cons_self a cs
    · exact List.mem_cons_of_mem x (ih hrest)

/-- No lowercased string contains the mixed-case needle
`ISTAOSS_ProgrammingData_`: case folding never produces an uppercase
`I`. -/
theorem lowered_never_contains_needle (u : String) :
    strIncludes (jsToLower u) "ISTAOSS_ProgrammingData_" = false := by
  cases hb : strIncludes (jsToLower u) "ISTAOSS_ProgrammingData_" with
  | false => rfl
  | true =>
    exfalso
    have h2 : listIncl ('I' :: "STAOSS_ProgrammingData_".toList) ((jsToLower u).toList) = true := hb
    have h3 : ('I' : Char) ∈ (jsToLower u).toList := listIncl_head_mem _ _ _ h2
    have h4 : (jsToLower u).toList = u.toList.map lowerChar := rfl
    rw [h4] at h3
    obtain ⟨d, _, hd⟩ := List.mem_map.mp h3
    exact lowerChar_ne_I d hd

/-! ## Claim theorems -/

/-- C1: `isNewVersion` accepts everything when the category has no recorded
version, rejects the sentinel `"unknown"`, and otherwise accepts exactly
when the new version string differs from the recorded one by plain string
inequality (so a lexicographically older string is also accepted).  The
hypothesis that a recorded version is non-empty reflects the records the
pipeline writes: a stored `version` is always a regex match (non-empty) or
the sentinel. -/
theorem C1_isNewVersion_policy (m : Metadata) (category version : String)
    (hwf : ∀ r, lookupA category m.downloads = some r → r.version ≠ "") :
    (lookupA category m.downloads = none → isNewVersion m category version = true) ∧
    (∀ r, lookupA category m.downloads = some r →
      isNewVersion m category version =
        if version = "unknown" then false else decide (version ≠ r.version)) := by
  constructor
  · intro h
    unfold isNewVersion
    rw [h]
  · intro r hr
    unfold isNewVersion
    rw [hr]
    show (if r.version = "" then true
          else if version = "unknown" then false else decide (version ≠ r.version)) = _
    rw [if_neg (hwf r hr)]

theorem C1_witness : isNewVersion sampleMeta "installer" "0.9.0" = true := by
  have h := (C1_isNewVersion_policy sampleMeta "installer" "0.9.0"
    (by
      intro r hr
      have h2 : some (⟨"1.0.0", "Tool_1.0.0.exe", 100, 0⟩ : ArtifactRecord) = some r := hr
      cases h2
      decide)).2 ⟨"1.0.0", "Tool_1.0.0.exe", 100, 0⟩ rfl
  rw [h]
  decide

/-- C4 (code bug): for a login attempt that throws, `BMWProvider.login`
emits exactly one login-failure notification carrying the failure reason
and returns `false`, while `VWProvider.login` returns `false` but emits no
notification at all — contradicting the required one-notification-per-
failed-attempt contract. -/
theorem C4_login_failure_notifications :
    vwLogin false (Except.error "Login verification failed - URL: https://example.com/login")
      = (false, []) ∧
    bmwLogin false (Except.error "Login verification failed - URL: https://example.com/login")
      = (false,
         [LoginEvent.loginFailure "bmw" "Login verification failed - URL: https://example.com/login"]) :=
  ⟨rfl, rfl⟩

/-- C7 (code bug): `updateProviderMetadata` is an unserialized
read-modify-write of the aggregate file; under the interleaving
read-bmw, read-vw, write-bmw, write-vw the bmw update is lost, whereas
the serialized order keeps both vendors' entries. -/
theorem C7_aggregate_lost_update :
    lookupA "bmw" c7Interleaved.providers = none ∧
    (lookupA "vw" c7Interleaved.providers).isSome = true ∧
    (lookupA "bmw" c7Serialized.providers).isSome = true ∧
    (lookupA "vw" c7Serialized.providers).isSome = true := by
  decide

/-- C9: a failed read (missing or unparsable file) of the vendor state or
of the aggregate state yields the empty initial shape instead of an
error: empty providers map, no `lastGlobalUpdate`, the schema version tag,
and respectively no `lastUpdate` with an empty downloads map. -/
theorem C9_state_load_failure_defaults :
    (∀ err : String, loadGlobalMetadata (Except.error err)
      = { providers := [], lastGlobalUpdate := none, version := "1.0.0" }) ∧
    (∀ err : String, loadMetadata (Except.error err)
      = { lastUpdate := none, downloads := [] }) :=
  ⟨fun _ => rfl, fun _ => rfl⟩

/-- C10: the `url.includes('ISTAOSS_ProgrammingData_')` disjunct is tested
against the already-lowercased URL and can never hold, so an allow-listed
candidate whose lowercased title lacks `programmierdaten` but whose
lowercased URL contains `istaoss` or `client` is assigned `client`,
never `programming_data`. -/
theorem C10_programming_data_url_check_dead (title url : String)
    (h1 : strIncludes (jsToLower title) "programmierdaten" = false)
    (h2 : strIncludes (jsToLower url) "istaoss" = true ∨
          strIncludes (jsToLower url) "client" = true) :
    (∀ u : String, strIncludes (jsToLower u) "ISTAOSS_ProgrammingData_" = false) ∧
    istaNextCategory (jsToLower title) (jsToLower url) = some "client" := by
  refine ⟨lowered_never_contains_needle, ?_⟩
  unfold istaNextCategory
  rw [h1, lowered_never_contains_needle url]
  rcases h2 with h2 | h2 <;> simp [h2]

theorem C10_witness :
    istaNextCategory (jsToLower "ICOM Firmware Paket") (jsToLower "https://x/istaoss_pkg.zip")
      = some "client" :=
  (C10_programming_data_url_check_dead "ICOM Firmware Paket" "https://x/istaoss_pkg.zip"
    (by decide) (Or.inl (by decide))).2

/-- C8: every state mutation either stamps `lastUpdate` with the current
clock instant (`updateMetadata`, `updateLastCheck`) or leaves it unchanged
(the cleanup record deletion), so under a non-decreasing clock the
persisted `lastUpdate` never decreases; and a completed check cycle —
any operation trace ending in the unconditional `updateLastCheck` —
always leaves `lastUpdate` at the cycle's final instant, downloads or
not. -/
theorem C8_lastUpdate_monotone_and_advanced :
    (∀ (m : Metadata) (op : VendorOp),
      (∀ t u, m.lastUpdate = some t → opTime op = some u → t ≤ u) →
      leOpt m.lastUpdate (applyVendorOp m op).lastUpdate) ∧
    (∀ (m : Metadata) (ops : List VendorOp) (t : Nat),
      (runVendorOps m (ops ++ [VendorOp.lastCheck t])).lastUpdate = some t) := by
  constructor
  · intro m op hclock t ht
    cases op with
    | updateMeta c d now => exact ⟨now, rfl, hclock t now ht rfl⟩
    | lastCheck now => exact ⟨now, rfl, hclock t now ht rfl⟩
    | dropRecord c => exact ⟨t, ht, Nat.le_refl t⟩
  · intro m ops t
    induction ops generalizing m with
    | nil => rfl
    | cons op rest ih =>
      rw [List.cons_append, runVendorOps]
      exact ih (applyVendorOp m op)

theorem C8_witness :
    leOpt (Metadata.lastUpdate ⟨some 3, []⟩)
      ((applyVendorOp ⟨some 3, []⟩ (VendorOp.lastCheck 5)).lastUpdate) ∧
    (runVendorOps ⟨none, []⟩
      ([VendorOp.dropRecord "installer"] ++ [VendorOp.lastCheck 7])).lastUpdate = some 7 :=
  ⟨C8_lastUpdate_monotone_and_advanced.1 ⟨some 3, []⟩ (VendorOp.lastCheck 5)
    (by
      intro t u ht hu
      have ht2 : some 3 = some t := ht
      have hu2 : some 5 = some u := hu
      injection ht2 with ht3
      injection hu2 with hu3
      omega),
   C8_lastUpdate_monotone_and_advanced.2 ⟨none, []⟩ [VendorOp.dropRecord "installer"] 7⟩

/-- Helper for C5: a candidate never displaces an already-assigned
category (`!categorized[category]` guards the write). -/
theorem bmwStep_preserves (filter2 : List String) (appType : String)
    (acc : List (String × CatArtifact)) (c : Candidate) (cat : String) (a : CatArtifact)
    (h : lookupA cat acc = some a) :
    lookupA cat (bmwCategorizeStep filter2 appType acc c) = some a := by
  unfold bmwCategorizeStep
  split
  · unfold bmwApplyCandidate
    split
    · next category heq =>
      split
      · next hcond =>
        have hne : cat ≠ category := by
          intro he
          have hnone := hcond.2
          rw [← he, h] at hnone
          simp at hnone
        rw [lookupA_insertA_ne _ _ _ _ hne]
        exact h
      · exact h
    · exact h
  · exact h

/-- Helper for C5: once a category is occupied, the rest of the pass
cannot change its artifact. -/
theorem bmwCategorize_occupied_stable (filter2 : List String) (appType : String)
    (cs : List Candidate) (acc : List (String × CatArtifact)) (cat : String) (a : CatArtifact)
    (h : lookupA cat acc = some a) :
    lookupA cat (cs.foldl (bmwCategorizeStep filter2 appType) acc) = some a := by
  induction cs generalizing acc with
  | nil => exact h
  | cons c rest ih =>
    rw [List.foldl_cons]
    exact ih _ (bmwStep_preserves _ _ _ _ _ _ h)

/-- C5: the ISTA-Next rule chain checks programming data before the
generic client rule; an occupied category ignores later candidates; and
on the spec's candidate pair (both allow-listed) categorization yields
exactly programming_data and client with no cross-assignment. -/
theorem C5_first_match_categorization (filter2 : List String)
    (h1 : matchesFilter filter2 c5Cand1 = true)
    (h2 : matchesFilter filter2 c5Cand2 = true) :
    (∀ title url, strIncludes title "programmierdaten" = true →
      istaNextCategory title url = some "programming_data") ∧
    (∀ (cs : List Candidate) (acc : List (String × CatArtifact)) (cat : String) (a : CatArtifact),
      lookupA cat acc = some a →
      lookupA cat (cs.foldl (bmwCategorizeStep filter2 "ista-next") acc) = some a) ∧
    (bmwCategorizeDownloads filter2 "ista-next" [c5Cand1, c5Cand2]).map Prod.fst
      = ["programming_data", "client"] ∧
    (lookupA "programming_data" (bmwCategorizeDownloads filter2 "ista-next" [c5Cand1, c5Cand2])).map
      (fun a => a.url) = some c5Cand1.url ∧
    (lookupA "client" (bmwCategorizeDownloads filter2 "ista-next" [c5Cand1, c5Cand2])).map
      (fun a => a.url) = some c5Cand2.url := by
  have hfold : bmwCategorizeDownloads filter2 "ista-next" [c5Cand1, c5Cand2]
      = bmwApplyCandidate "ista-next" (bmwApplyCandidate "ista-next" [] c5Cand1) c5Cand2 := by
    unfold bmwCategorizeDownloads
    rw [List.foldl_cons, List.foldl_cons, List.foldl_nil]
    unfold bmwCategorizeStep
    rw [if_pos h1, if_pos h2]
  refine ⟨?_, ?_, ?_, ?_, ?_⟩
  · intro title url ht
    unfold istaNextCategory
    simp [ht]
  · intro cs acc cat a h
    exact bmwCategorize_occupied_stable filter2 "ista-next" cs acc cat a h
  · rw [hfold]; decide
  · rw [hfold]; decide
  · rw [hfold]; decide

theorem C5_witness :
    (bmwCategorizeDownloads ["Programmierdaten", "Installationsdatei"] "ista-next"
      [c5Cand1, c5Cand2]).map Prod.fst = ["programming_data", "client"] :=
  (C5_first_match_categorization ["Programmierdaten", "Installationsdatei"]
    (by decide) (by decide)).2.2.1

/-- C3 counterexample: the base extraction used by the BMW provider has no
underscore-grouped-with-date pattern and never consults a filename, so a
URL carrying `25_1_0_20250820` (which VW's own filename pattern list
matches) yields the sentinel, and the BMW pipeline stores version
`"unknown"` for it. -/
theorem C3_counterexample :
    extractVersion "https://host/ICOM-Next-FW_25_1_0_20250820.zip" = "unknown" ∧
    vwFilenameMatch "ICOM-Next-FW_25_1_0_20250820.zip" = some "25_1_0_20250820" ∧
    (lookupA "icom_firmware"
      (bmwCategorizeDownloads ["ICOM"] "ista-next"
        [⟨"ICOM Next Firmware", "https://host/ICOM-Next-FW_25_1_0_20250820.zip"⟩])).map
      (fun a => a.version) = some "unknown" := by
  decide

/-- C3 amended: version extraction is vendor-specific.  The VW provider
tries the resolved filename first against the ordered list covering the
underscore-grouped-with-date forms (with optional region suffix),
four-dot, three-dot, dash-numeric and bare ISO date, and only then falls
back to the URL with the four-dot/three-dot/dash-numeric list — which is
exactly the base provider's whole pattern list (used by BMW on the URL
alone).  First match wins; when nothing matches the result is the
sentinel `"unknown"`. -/
theorem C3_amended_vendor_specific_extraction :
    (∀ url fn v, vwFilenameMatch fn = some v → vwExtractVersion url fn = v) ∧
    (∀ url fn, vwFilenameMatch fn = none → vwExtractVersion url fn = extractVersion url) ∧
    (∀ url m, firstPatMatch baseUrlPatterns url.toList = some m →
      extractVersion url = String.mk m) ∧
    (∀ url, firstPatMatch baseUrlPatterns url.toList = none → extractVersion url = "unknown") ∧
    vwExtractVersion "https://x" "ODIS-Service_update_25_1_0-EU_20250820.zip"
      = "25_1_0-EU_20250820" ∧
    extractVersion "https://x/BMW_ISPI_ISTA-P_BDRCLient_3.74.0.930.exe" = "3.74.0.930" := by
  refine ⟨?_, ?_, ?_, ?_, by decide, by decide⟩
  · intro url fn v h
    unfold vwExtractVersion
    by_cases hfn : fn = ""
    · subst hfn
      rw [show vwFilenameMatch "" = none from rfl] at h
      exact Option.noConfusion h
    · rw [if_pos hfn, h]
  · intro url fn h
    unfold vwExtractVersion
    by_cases hfn : fn = ""
    · rw [if_neg (fun hne => hne hfn), show vwUrlPatterns = baseUrlPatterns from rfl]
      rfl
    · rw [if_pos hfn, h, show vwUrlPatterns = baseUrlPatterns from rfl]
      rfl
  · intro url m h
    unfold extractVersion
    rw [h]
  · intro url h
    unfold extractVersion
    rw [h]

theorem C3_witness :
    vwExtractVersion "https://host/dl" "ODIS-Service_installation_25_1_0_20250820.zip"
      = "25_1_0_20250820" :=
  C3_amended_vendor_specific_extraction.1 "https://host/dl"
    "ODIS-Service_installation_25_1_0_20250820.zip" "25_1_0_20250820" (by decide)

/-! ## Transfer-path lemmas for C2 and C6 -/

theorem removeA_of_lookup_none {α : Type} (k : String) (l : List (String × α))
    (h : lookupA k l = none) : removeA k l = l := by
  induction l with
  | nil => rfl
  | cons hd tl ih =>
    obtain ⟨k1, v1⟩ := hd
    rw [lookupA] at h
    by_cases h1 : k1 = k
    · rw [if_pos h1] at h
      exact Option.noConfusion h
    · rw [if_neg h1] at h
      rw [removeA, if_neg h1, ih h]

/-- `downloadFile` on a zero-byte completion, unfolded. -/
theorem downloadFile_completed_zero (st : ProviderFS) (d : Download) (now : Nat) :
    downloadFile st d (.completed 0) now
      = ({ cleanupOldVersions st d.category (resolveFileName d) with
           files := removeA (resolveFileName d)
             (insertA (resolveFileName d) 0
               (cleanupOldVersions st d.category (resolveFileName d)).files) }, false) := rfl

/-- `downloadFile` on a successful non-empty completion, unfolded. -/
theorem downloadFile_completed_pos (st : ProviderFS) (d : Download) (now size : Nat)
    (h : 0 < size) :
    downloadFile st d (.completed size) now
      = ({ files := insertA (resolveFileName d) size
             (cleanupOldVersions st d.category (resolveFileName d)).files,
           metadata := updateMetadata
             (cleanupOldVersions st d.category (resolveFileName d)).metadata d.category
             (mkArtifactRecord d (resolveFileName d) size now) now }, true) := by
  simp only [downloadFile]
  rw [if_pos h]

/-- What `cleanupOldVersions` does to the metadata: `lastUpdate` is
untouched, and the category's record survives unless it named a
different file that was present on disk. -/
theorem cleanup_metadata_lookup (st : ProviderFS) (cat new : String) :
    (cleanupOldVersions st cat new).metadata.lastUpdate = st.metadata.lastUpdate ∧
    (lookupA cat st.metadata.downloads = none →
      lookupA cat (cleanupOldVersions st cat new).metadata.downloads = none) ∧
    (∀ r, lookupA cat st.metadata.downloads = some r →
      lookupA cat (cleanupOldVersions st cat new).metadata.downloads =
        if r.fileName ≠ "" ∧ r.fileName ≠ new ∧ (lookupA r.fileName st.files).isSome = true
        then none else some r) := by
  refine ⟨?_, ?_, ?_⟩
  · unfold cleanupOldVersions cleanupSimilarFiles
    split
    · split
      · split
        · rfl
        · rfl
      · rfl
    · rfl
  · intro h
    unfold cleanupOldVersions cleanupSimilarFiles
    split
    · next r2 heq =>
      rw [h] at heq
      exact Option.noConfusion heq
    · exact h
  · intro r hrec
    unfold cleanupOldVersions cleanupSimilarFiles
    split
    · next r2 heq =>
      rw [hrec] at heq
      injection heq with heq2
      subst heq2
      split
      · next hcond =>
        split
        · next hacc =>
          rw [if_pos ⟨hcond.1, hcond.2, hacc⟩]
          exact lookupA_removeA_self _ _
        · next hacc =>
          rw [if_neg (fun hc => hacc hc.2.2)]
          exact hrec
      · next hcond =>
        rw [if_neg (fun hc => hcond ⟨hc.1, hc.2.1⟩)]
        exact hrec
    · next heq =>
      rw [hrec] at heq
      exact Option.noConfusion heq

/-- What `cleanupOldVersions` does to the directory when the category's
record names a different file: that file's entry is removed (whether or
not it was present) and the similar-file sweep filters the rest. -/
theorem cleanup_files_of_record (st : ProviderFS) (cat new : String) (r : ArtifactRecord)
    (hrec : lookupA cat st.metadata.downloads = some r)
    (hne : r.fileName ≠ "") (hdiff : r.fileName ≠ new) :
    (cleanupOldVersions st cat new).files
      = (removeA r.fileName st.files).filter
          (fun f => endsWithA f.1 ".json" || f.1 == new ||
            !(getBaseFileName f.1 == getBaseFileName new &&
              extnameStr f.1 == extnameStr new)) := by
  unfold cleanupOldVersions cleanupSimilarFiles
  split
  · next r2 heq =>
    rw [hrec] at heq
    injection heq with heq2
    subst heq2
    split
    · next hcond =>
      split
      · next hacc => rfl
      · next hacc =>
        have hnone : lookupA r.fileName st.files = none :=
          Option.not_isSome_iff_eq_none.mp hacc
        rw [removeA_of_lookup_none _ _ hnone]
    · next hcond => exact absurd ⟨hne, hdiff⟩ hcond
  · next heq =>
    rw [hrec] at heq
    exact Option.noConfusion heq

theorem cleanup_old_file_gone (st : ProviderFS) (cat new : String) (r : ArtifactRecord)
    (hrec : lookupA cat st.metadata.downloads = some r)
    (hne : r.fileName ≠ "") (hdiff : r.fileName ≠ new) :
    lookupA r.fileName (cleanupOldVersions st cat new).files = none := by
  rw [cleanup_files_of_record st cat new r hrec hne hdiff]
  exact lookupA_filter_none _ _ _ (lookupA_removeA_self _ _)

/-- Every directory entry surviving `cleanupOldVersions` passed the
similar-file sweep's keep condition. -/
theorem mem_cleanup_keep (st : ProviderFS) (cat new : String) (x : String × Nat)
    (hx : x ∈ (cleanupOldVersions st cat new).files) :
    (endsWithA x.1 ".json" || x.1 == new ||
     !(getBaseFileName x.1 == getBaseFileName new && extnameStr x.1 == extnameStr new))
      = true := by
  unfold cleanupOldVersions cleanupSimilarFiles at hx
  exact (List.mem_filter.mp hx).2

/-- C2 counterexample: with a record for the category naming a different
file that is present on disk, a zero-byte transfer is reported as a
failure but the category's previously recorded ArtifactRecord is gone
(the pre-transfer cleanup deleted it), contradicting "left unchanged". -/
theorem C2_counterexample :
    (downloadFile sampleState sampleDownload (.completed 0) 9).2 = false ∧
    lookupA "installer" sampleState.metadata.downloads
      = some ⟨"1.0.0", "Tool_1.0.0.exe", 100, 0⟩ ∧
    lookupA "installer"
      (downloadFile sampleState sampleDownload (.completed 0) 9).1.metadata.downloads
      = none := by
  decide

/-- C2 amended: a zero-byte completion reports failure, removes the file at
the target path, writes no new record and leaves `lastUpdate` untouched;
the category's previously recorded ArtifactRecord is left unchanged
except when it named a different file that was present on disk, in which
case the pre-transfer cleanup has already deleted both the old file and
the record, leaving the category with no record at all. -/
theorem C2_zero_byte_failure (st : ProviderFS) (d : Download) (now : Nat) :
    (downloadFile st d (.completed 0) now).2 = false ∧
    lookupA (resolveFileName d) (downloadFile st d (.completed 0) now).1.files = none ∧
    (downloadFile st d (.completed 0) now).1.metadata.lastUpdate = st.metadata.lastUpdate ∧
    (lookupA d.category st.metadata.downloads = none →
      lookupA d.category (downloadFile st d (.completed 0) now).1.metadata.downloads = none) ∧
    (∀ r, lookupA d.category st.metadata.downloads = some r →
      lookupA d.category (downloadFile st d (.completed 0) now).1.metadata.downloads =
        if r.fileName ≠ "" ∧ r.fileName ≠ resolveFileName d ∧
           (lookupA r.fileName st.files).isSome = true
        then none else some r) := by
  rw [downloadFile_completed_zero]
  exact ⟨rfl, lookupA_removeA_self _ _,
    (cleanup_metadata_lookup st d.category (resolveFileName d)).1,
    (cleanup_metadata_lookup st d.category (resolveFileName d)).2.1,
    (cleanup_metadata_lookup st d.category (resolveFileName d)).2.2⟩

theorem C2_witness :
    lookupA "installer"
      (downloadFile sampleState sampleDownload (.completed 0) 9).1.metadata.downloads
      = none := by
  have h := (C2_zero_byte_failure sampleState sampleDownload 9).2.2.2.2
    ⟨"1.0.0", "Tool_1.0.0.exe", 100, 0⟩ rfl
  show lookupA sampleDownload.category
    (downloadFile sampleState sampleDownload (.completed 0) 9).1.metadata.downloads = none
  rw [h]
  decide

/-- C6: a successful (non-empty) download over an existing record with a
different filename reports success, leaves the old file deleted and the
new file recorded on disk, points the category's record at the new
filename, and leaves no other non-metadata file sharing the new file's
version-stripped base name and extension. -/
theorem C6_download_replaces_old (st : ProviderFS) (d : Download) (now size : Nat)
    (oldRec : ArtifactRecord)
    (hsize : 0 < size)
    (hrec : lookupA d.category st.metadata.downloads = some oldRec)
    (hne : oldRec.fileName ≠ "")
    (hdiff : oldRec.fileName ≠ resolveFileName d) :
    (downloadFile st d (.completed size) now).2 = true ∧
    lookupA oldRec.fileName (downloadFile st d (.completed size) now).1.files = none ∧
    lookupA (resolveFileName d) (downloadFile st d (.completed size) now).1.files
      = some size ∧
    (lookupA d.category
      (downloadFile st d (.completed size) now).1.metadata.downloads).map
      (fun r => r.fileName) = some (resolveFileName d) ∧
    (∀ f sz, (f, sz) ∈ (downloadFile st d (.completed size) now).1.files →
      f ≠ resolveFileName d → endsWithA f ".json" = false →
      ¬(getBaseFileName f = getBaseFileName (resolveFileName d) ∧
        extnameStr f = extnameStr (resolveFileName d))) := by
  rw [downloadFile_completed_pos st d now size hsize]
  refine ⟨rfl, ?_, ?_, ?_, ?_⟩
  · show lookupA oldRec.fileName
      (insertA (resolveFileName d) size
        (cleanupOldVersions st d.category (resolveFileName d)).files) = none
    rw [lookupA_insertA_ne _ _ _ _ hdiff]
    exact cleanup_old_file_gone st d.category (resolveFileName d) oldRec hrec hne hdiff
  · exact lookupA_insertA_self _ _ _
  · show (lookupA d.category
      (insertA d.category (mkArtifactRecord d (resolveFileName d) size now)
        (cleanupOldVersions st d.category (resolveFileName d)).metadata.downloads)).map
      (fun r => r.fileName) = some (resolveFileName d)
    rw [lookupA_insertA_self]
    rfl
  · intro f sz hmem hf hjson
    have hmem2 : (f, sz) = (resolveFileName d, size) ∨
        (f, sz) ∈ (cleanupOldVersions st d.category (resolveFileName d)).files :=
      mem_insertA _ _ _ _ hmem
    rcases hmem2 with he | hm
    · exact absurd (congrArg Prod.fst he) hf
    · have hkeep := mem_cleanup_keep st d.category (resolveFileName d) (f, sz) hm
      intro hcon
      simp [hjson, hf, hcon.1, hcon.2] at hkeep

theorem C6_witness :
    (downloadFile sampleState sampleDownload (.completed 200) 9).2 = true ∧
    lookupA "Tool_1.0.0.exe" (downloadFile sampleState sampleDownload (.completed 200) 9).1.files
      = none ∧
    lookupA (resolveFileName sampleDownload)
      (downloadFile sampleState sampleDownload (.completed 200) 9).1.files = some 200 :=
  ⟨(C6_download_replaces_old sampleState sampleDownload 9 200 ⟨"1.0.0", "Tool_1.0.0.exe", 100, 0⟩
      (by decide) rfl (by decide) (by decide)).1,
   (C6_download_replaces_old sampleState sampleDownload 9 200 ⟨"1.0.0", "Tool_1.0.0.exe", 100, 0⟩
      (by decide) rfl (by decide) (by decide)).2.1,
   (C6_download_replaces_old sampleState sampleDownload 9 200 ⟨"1.0.0", "Tool_1.0.0.exe", 100, 0⟩
      (by decide) rfl (by decide) (by decide)).2.2.1⟩

end Caros

namespace Caros

/-- Model fidelity check against the spec's filename-extraction test
vector: the signed query-string URL resolves to the clean filename. -/
theorem model_check_clean_filename :
    extractCleanFilename "https://host/path/Installer.exe?sig=abc&signed=true"
      = some "Installer.exe" := by decide

/-- Model fidelity check: the base version patterns on representative
URLs, and the VW filename patterns on representative ODIS names. -/
theorem model_check_version_patterns :
    extractVersion "https://host/x/BMW_ISPI_ISTA-P_BDRCLient_3.74.0.930.exe" = "3.74.0.930" ∧
    extractVersion "https://host/client_1.2.3.exe" = "1.2.3" ∧
    extractVersion "http://h/Firmware_04-25-10.zip" = "04-25-10" ∧
    vwFilenameMatch "ODIS-Service_update_25_1_0-EU_20250820.zip" = some "25_1_0-EU_20250820" ∧
    vwExtractVersion "https://h/x" "Daten_2025-02-03.zip" = "2025-02-03" := by decide

/-- Model fidelity check: version-stripped base names. -/
theorem model_check_base_names :
    getBaseFileName "Tool_1.0.0.exe" = "Tool" ∧
    getBaseFileName "Data_2025-02-03.zip" = "Data" ∧
    extnameStr "Tool_1.0.0.exe" = ".exe" := by decide

/-- Model fidelity check: a full successful replacement download on the
spec's cleanup example state, end to end. -/
theorem model_check_replacement_download :
    downloadFile sampleState sampleDownload (.completed 200) 9
      = (⟨[("Tool_1.1.0.exe", 200)],
          ⟨some 9, [("installer", ⟨"1.1.0", "Tool_1.1.0.exe", 200, 9⟩)]⟩⟩, true) := by decide

end Caros
